import Mathlib

/-!
Verification development for the text-placement image analyzer.

The core of the analyzer is a set of pure functions over an RGBA pixel buffer:
grid statistics (per-cell average color and luminance-variance "busyness"),
candidate rectangle-shape generation, an exhaustive minimum-busyness
rectangle search, text-color selection, greedy word wrap, and a dynamic
text-size renderer with a scrim decision.

The embedding below follows the source code. JavaScript numbers are
modelled by exact rationals (`ℚ`); all arithmetic appearing in the source
(sums, averages, divisions by positive counts, floors, ceilings,
comparisons) is exact in `ℚ`.  The one JavaScript `Infinity` sentinel
(busyness of a zero-pixel cell) is modelled by a dedicated `Busy` type
with the same ordering and addition behaviour. `Math.round(Math.sqrt x)`
is modelled by exact rounding of the real square root of the rational
argument (`roundSqrtQ`); JavaScript strings are modelled by `String` /
`List Char` as noted at each definition.
-/

/-- Busyness values: a rational, or the `Infinity` sentinel assigned to a
zero-pixel cell.  Mirrors the JavaScript number line as used by the
analyzer: `Infinity + x = Infinity`, `Infinity < Infinity` is false. -/
inductive Busy where
  | val (q : ℚ)
  | inf
deriving DecidableEq, Repr

/-- Addition on busyness values; `Infinity` absorbs (as in JavaScript for
the non-negative summands occurring here). -/
def Busy.add : Busy → Busy → Busy
  | .val p, .val q => .val (p + q)
  | _, _ => .inf

/-- Division of a busyness value by a rational count.  In the source this
is only applied with a positive count (`pixelCount === 0` positions are
skipped), where `Infinity / n = Infinity` and `q / n` is exact. -/
def Busy.divQ : Busy → ℚ → Busy
  | .val p, n => .val (p / n)
  | .inf, _ => .inf

/-- Strict order on busyness values, matching JavaScript `<` on numbers
with `Infinity`: `Infinity < Infinity` is false. -/
def Busy.lt : Busy → Busy → Prop
  | .val p, .val q => p < q
  | .val _, .inf => True
  | .inf, _ => False

/-- Non-strict order on busyness values. -/
def Busy.le : Busy → Busy → Prop
  | .val p, .val q => p ≤ q
  | _, .inf => True
  | .inf, .val _ => False

instance : (a b : Busy) → Decidable (a.lt b)
  | .val p, .val q => inferInstanceAs (Decidable (p < q))
  | .val _, .inf => .isTrue trivial
  | .inf, _ => .isFalse id

instance : (a b : Busy) → Decidable (a.le b)
  | .val p, .val q => inferInstanceAs (Decidable (p ≤ q))
  | .val _, .inf => .isTrue trivial
  | .inf, .inf => .isTrue trivial
  | .inf, .val _ => .isFalse id

/-- An RGB color with rational channels (exact averages). -/
structure Color where
  r : ℚ
  g : ℚ
  b : ℚ
deriving DecidableEq, Repr

/-- `getLuminance` from the source: `0.299*r + 0.587*g + 0.114*b`. -/
def getLuminance (r g b : ℚ) : ℚ := 0.299 * r + 0.587 * g + 0.114 * b

/-- `calculateContrastRatio` from the source:
`(lighter + 0.05*255) / (darker + 0.05*255)` on raw luminances. -/
def calculateContrastRatio (c1 c2 : Color) : ℚ :=
  let lum1 := getLuminance c1.r c1.g c1.b
  let lum2 := getLuminance c2.r c2.g c2.b
  let lighterLum := max lum1 lum2
  let darkerLum := min lum1 lum2
  (lighterLum + 0.05 * 255) / (darkerLum + 0.05 * 255)

/-- `ShapeToFind` from the source: an aspect-ratio name and a cell
footprint. -/
structure Shape where
  name : String
  rows : ℤ
  cols : ℤ
deriving DecidableEq, Repr

/-- The name classification inside `addShape`: the `namePrefix` argument of
the source is always overwritten by this four-way classification. -/
def classifyName (r c : ℤ) : String :=
  if |(r : ℚ) - (c : ℚ)| ≤ max 1 (min (r : ℚ) (c : ℚ) * 0.25) then "square"
  else if (c : ℚ) > (r : ℚ) * 1.25 then "landscape"
  else if (r : ℚ) > (c : ℚ) * 1.25 then "portrait"
  else "near-square"

/-- `addShape` from `generateShapesToTest`: reject out-of-bounds or
undersized footprints, deduplicate by the `(rows, cols)` key (the source
keys its `Map` by the string `` `${r}x${c}` ``, which is in bijection with
the pair for the positive integers that pass the guard), and append. -/
def addShape (targetArea maxRows maxCols : ℤ) (shapes : List Shape) (r c : ℤ) : List Shape :=
  if r ≤ 0 ∨ c ≤ 0 ∨ r > maxRows ∨ c > maxCols ∨ ((r * c : ℤ) : ℚ) < (targetArea : ℚ) * 0.8 then
    shapes
  else if shapes.any (fun s => decide (s.rows = r ∧ s.cols = c)) then shapes
  else shapes ++ [⟨classifyName r c, r, c⟩]

/-- Exact model of JavaScript `Math.round(Math.sqrt q)` for `q ≥ 0`: the
least `k` with `q < (k + 1/2)^2`, i.e. the half-up rounding of the real
square root (a tie `√q = k + 1/2` cannot occur for rational `q` of this
shape reaching a half-integer exactly only when `q = (k+1/2)^2`, handled
half-up by the strict inequality).  Totalized as `0` for `q < 0`, which is
outside the input contract of the analyzer (`targetArea ≥ 1`). -/
def roundSqrtQ (q : ℚ) : ℕ :=
  let bound := (max q.ceil 0).toNat.sqrt + 2
  ((List.range bound).find? (fun (k : ℕ) => decide (q < ((k : ℚ) + 1 / 2) ^ 2))).getD bound

/-- `generateShapesToTest` from the source, with the successive `addShape`
calls expressed as a fold over the attempt list in the call order of the
source. -/
def generateShapesToTest (targetArea maxRows maxCols : ℤ) : List Shape :=
  let r_s : ℤ := max 1 (roundSqrtQ (targetArea : ℚ) : ℤ)
  let c_s : ℤ := max 1 ((targetArea : ℚ) / (r_s : ℚ)).ceil
  let r_ls : ℤ := max 1 (roundSqrtQ ((targetArea : ℚ) / 1.8) : ℤ)
  let c_ls0 : ℤ := max 1 ((targetArea : ℚ) / (r_ls : ℚ)).ceil
  let c_ls : ℤ := if r_ls * c_ls0 < targetArea ∧ c_ls0 < maxCols then c_ls0 + 1 else c_ls0
  let c_pt : ℤ := max 1 (roundSqrtQ ((targetArea : ℚ) / 1.8) : ℤ)
  let r_pt0 : ℤ := max 1 ((targetArea : ℚ) / (c_pt : ℚ)).ceil
  let r_pt : ℤ := if r_pt0 * c_pt < targetArea ∧ r_pt0 < maxRows then r_pt0 + 1 else r_pt0
  let attempts : List (ℤ × ℤ) :=
    [(r_s, c_s), (c_s, r_s), (r_ls, c_ls), (r_pt, c_pt)] ++
      (if targetArea ≤ maxCols then
        [((1 : ℤ), min maxCols (max targetArea ((targetArea : ℚ) / 1).ceil))] else []) ++
      (if targetArea ≤ maxRows then
        [(min maxRows (max targetArea ((targetArea : ℚ) / 1).ceil), (1 : ℤ))] else []) ++
      [(r_s + 1, c_s), (r_s, c_s + 1)]
  attempts.foldl (fun acc rc => addShape targetArea maxRows maxCols acc rc.1 rc.2) []

/-- `ImageData` as consumed by the analyzer: RGBA bytes addressed by flat
index, plus dimensions.  `data i` models `imageData.data[i]`; the analyzer
only reads indices inside the buffer. -/
structure ImageDataM where
  width : ℕ
  height : ℕ
  data : ℕ → ℚ

/-- `gridConfig`.  Dimensions are JavaScript numbers, so modelled by `ℤ`
(the source performs no validity check on them). -/
structure GridConfig where
  rows : ℤ
  cols : ℤ
deriving DecidableEq, Repr

/-- `CellStat` from the source. -/
structure CellStat where
  avgColor : Color
  busyness : Busy
deriving DecidableEq, Repr

/-- The default used to totalize list indexing where the source would read
`cellStats[i]` out of range; such reads are unreachable through the
guards of the pipeline. -/
def defaultCellStat : CellStat := ⟨⟨0, 0, 0⟩, .inf⟩

/-- The pixels covered by grid cell `(r, c)`: the source iterates
`y ∈ [floor(r·cellH), floor((r+1)·cellH))` and
`x ∈ [floor(c·cellW), floor((c+1)·cellW))` and reads RGB at
`(y·width + x)·4`. -/
def cellPixels (img : ImageDataM) (grid : GridConfig) (r c : ℕ) : List (ℚ × ℚ × ℚ) :=
  let cellWidthPx : ℚ := (img.width : ℚ) / (grid.cols : ℚ)
  let cellHeightPx : ℚ := (img.height : ℚ) / (grid.rows : ℚ)
  let cellX : ℤ := ((c : ℚ) * cellWidthPx).floor
  let cellY : ℤ := ((r : ℚ) * cellHeightPx).floor
  let cCellWidth : ℤ := (((c : ℚ) + 1) * cellWidthPx).floor - cellX
  let cCellHeight : ℤ := (((r : ℚ) + 1) * cellHeightPx).floor - cellY
  (List.range cCellHeight.toNat).flatMap fun dy =>
    (List.range cCellWidth.toNat).map fun dx =>
      let i := (cellY.toNat + dy) * img.width * 4 + (cellX.toNat + dx) * 4
      (img.data i, img.data (i + 1), img.data (i + 2))

/-- Statistics of one grid cell: average color and busyness (mean squared
deviation of per-pixel luminance from the mean luminance of the cell); a
zero-pixel cell gets the `{avgColor 0, busyness Infinity}` sentinel. -/
def cellStatFor (img : ImageDataM) (grid : GridConfig) (r c : ℕ) : CellStat :=
  let px := cellPixels img grid r c
  if px.length = 0 then defaultCellStat
  else
    let n : ℚ := px.length
    let avgR := (px.map fun p => p.1).sum / n
    let avgG := (px.map fun p => p.2.1).sum / n
    let avgB := (px.map fun p => p.2.2).sum / n
    let luminances := px.map fun p => getLuminance p.1 p.2.1 p.2.2
    let avgL := luminances.sum / n
    let busyness := (luminances.map fun l => (l - avgL) ^ 2).sum / n
    ⟨⟨avgR, avgG, avgB⟩, .val busyness⟩

/-- The flat row-major `CellStat` list built by the grid loops of
`analyzeImageCore`. -/
def computeCellStats (img : ImageDataM) (grid : GridConfig) : List CellStat :=
  (List.range grid.rows.toNat).flatMap fun r =>
    (List.range grid.cols.toNat).map fun c => cellStatFor img grid r c

/-- `AnalysisDataForHover` from the source. -/
structure AnalysisDataForHover where
  stats : List CellStat
  gridConfig : GridConfig
  cellWidthPx : ℚ
  cellHeightPx : ℚ
  canvasWidth : ℕ
  canvasHeight : ℕ
deriving DecidableEq, Repr

/-- The hover snapshot built by `analyzeImageCore` before the search. -/
def mkHover (img : ImageDataM) (grid : GridConfig) : AnalysisDataForHover :=
  { stats := computeCellStats img grid
    gridConfig := grid
    cellWidthPx := (img.width : ℚ) / (grid.cols : ℚ)
    cellHeightPx := (img.height : ℚ) / (grid.rows : ℚ)
    canvasWidth := img.width
    canvasHeight := img.height }

/-- `FoundRectInfo` from the source. -/
structure FoundRectInfo where
  x : ℤ
  y : ℤ
  width : ℤ
  height : ℤ
  avgColor : Color
  rStart : ℤ
  cStart : ℤ
  avgBusyness : Busy
  shape : Shape
deriving DecidableEq, Repr

/-- The integers visited by `for (v = lo; v <= hi; v++)`. -/
def intRangeList (lo hi : ℤ) : List ℤ :=
  (List.range (hi + 1 - lo).toNat).map fun (i : ℕ) => lo + (i : ℤ)

/-- The `(rStart, cStart)` pairs scanned for a shape, in the row-major
order of the source, from `borderExclusion` up to
`gridConfig.{rows,cols} - shape.{rows,cols} - borderExclusion`. -/
def positionsFor (grid : GridConfig) (shape : Shape) (borderExclusion : ℤ) : List (ℤ × ℤ) :=
  (intRangeList borderExclusion (grid.rows - shape.rows - borderExclusion)).flatMap fun rStart =>
    (intRangeList borderExclusion (grid.cols - shape.cols - borderExclusion)).map fun cStart =>
      (rStart, cStart)

/-- The cell statistics covered by a shape placed at `(rStart, cStart)`, in
the row-major offset order of the source, reading
`cellStats[(rStart+rOffset)*cols + (cStart+cOffset)]`. -/
def rectCellStats (cellStats : List CellStat) (cols : ℤ) (shape : Shape)
    (rStart cStart : ℤ) : List CellStat :=
  (List.range shape.rows.toNat).flatMap fun rOffset =>
    (List.range shape.cols.toNat).map fun cOffset =>
      cellStats.getD ((rStart + (rOffset : ℤ)) * cols + (cStart + (cOffset : ℤ))).toNat
        defaultCellStat

/-- One candidate rectangle evaluated at a scan position: busyness and
color sums over the covered cells, averaged, with pixel coordinates
obtained by flooring grid coordinates times the cell size. -/
def evalRectAt (cellStats : List CellStat) (cols : ℤ) (cellWidthPx cellHeightPx : ℚ)
    (shape : Shape) (p : ℤ × ℤ) : FoundRectInfo :=
  let cells := rectCellStats cellStats cols shape p.1 p.2
  let pixelCount : ℚ := cells.length
  let busynessSum := cells.foldl (fun acc s => acc.add s.busyness) (Busy.val 0)
  { x := ((p.2 : ℚ) * cellWidthPx).floor
    y := ((p.1 : ℚ) * cellHeightPx).floor
    width := ((shape.cols : ℚ) * cellWidthPx).floor
    height := ((shape.rows : ℚ) * cellHeightPx).floor
    avgColor := ⟨(cells.map fun s => s.avgColor.r).sum / pixelCount,
                 (cells.map fun s => s.avgColor.g).sum / pixelCount,
                 (cells.map fun s => s.avgColor.b).sum / pixelCount⟩
    rStart := p.1
    cStart := p.2
    avgBusyness := busynessSum.divQ pixelCount
    shape := shape }

/-- All candidate rectangles a shape contributes: none when the shape plus
twice the border exclusion exceeds the grid (the early `return null`), and
the `pixelCount === 0` positions are skipped (`continue`). -/
def candidatesFor (cellStats : List CellStat) (grid : GridConfig)
    (cellWidthPx cellHeightPx : ℚ) (borderExclusion : ℤ) (shape : Shape) :
    List FoundRectInfo :=
  if shape.rows + 2 * borderExclusion > grid.rows ∨
      shape.cols + 2 * borderExclusion > grid.cols then []
  else
    (positionsFor grid shape borderExclusion).filterMap fun p =>
      if (rectCellStats cellStats grid.cols shape p.1 p.2).length = 0 then none
      else some (evalRectAt cellStats grid.cols cellWidthPx cellHeightPx shape p)

/-- The running `(bestRect, minAvgBusyness)` update of
`findBestRectForGivenShape`: replace only on a strictly smaller average
busyness (ties keep the earlier position). -/
def selStep (acc : Option FoundRectInfo × Busy) (c : FoundRectInfo) :
    Option FoundRectInfo × Busy :=
  if c.avgBusyness.lt acc.2 then (some c, c.avgBusyness) else acc

/-- `findBestRectForGivenShape` from the source: scan the positions in
row-major order starting from `(bestRect = null, minAvgBusyness = ∞)`. -/
def findBestRectForGivenShape (shape : Shape) (cellStats : List CellStat)
    (grid : GridConfig) (cellWidthPx cellHeightPx : ℚ) (borderExclusion : ℤ) :
    Option FoundRectInfo :=
  ((candidatesFor cellStats grid cellWidthPx cellHeightPx borderExclusion shape).foldl
    selStep (none, Busy.inf)).1

/-- The per-shape update in the search loop of `analyzeImageCore`: adopt
the best rectangle of a shape when there is no current best or on a strictly
smaller average busyness. -/
def outStep (cellStats : List CellStat) (grid : GridConfig)
    (cellWidthPx cellHeightPx : ℚ) (borderExclusion : ℤ)
    (best : Option FoundRectInfo) (shape : Shape) : Option FoundRectInfo :=
  match findBestRectForGivenShape shape cellStats grid cellWidthPx cellHeightPx borderExclusion with
  | none => best
  | some ri =>
    match best with
    | none => some ri
    | some ob => if ri.avgBusyness.lt ob.avgBusyness then some ri else some ob

/-- The overall rectangle search of `analyzeImageCore`: fold the per-shape
bests over the shapes in generation order. -/
def searchBestRect (shapes : List Shape) (cellStats : List CellStat) (grid : GridConfig)
    (cellWidthPx cellHeightPx : ℚ) (borderExclusion : ℤ) : Option FoundRectInfo :=
  shapes.foldl (outStep cellStats grid cellWidthPx cellHeightPx borderExclusion) none

/-- Every (shape, position) candidate the search evaluates, shapes in
generation order and positions row-major within each shape. -/
def allCandidates (shapes : List Shape) (cellStats : List CellStat) (grid : GridConfig)
    (cellWidthPx cellHeightPx : ℚ) (borderExclusion : ℤ) : List FoundRectInfo :=
  shapes.flatMap (candidatesFor cellStats grid cellWidthPx cellHeightPx borderExclusion)

/-- JavaScript `Math.round` on the exact rational: half-up rounding,
`⌊q + 1/2⌋`. -/
def jsRound (q : ℚ) : ℤ := (q + 1 / 2).floor

/-- The decimal digit character for `d < 10`. -/
def digitChar (d : ℕ) : Char := Char.ofNat (48 + d)

/-- The JavaScript decimal rendering of a non-negative integer, as the
character sequence of the string. -/
def natChars (n : ℕ) : List Char :=
  if n = 0 then ['0'] else (Nat.digits 10 n).reverse.map digitChar

/-- The JavaScript decimal rendering of an integer. -/
def zChars (z : ℤ) : List Char :=
  if z < 0 then '-' :: natChars z.natAbs else natChars z.toNat

/-- The numeric value of a run of decimal digit characters (most
significant first). -/
def digitsVal (ds : List Char) : ℕ :=
  ds.foldl (fun acc c => 10 * acc + (c.toNat - 48)) 0

/-- JavaScript `parseInt` restricted to the character shapes that occur in
this program (optional leading spaces, then a maximal digit run, any
trailing junk ignored); an empty digit run is `NaN`, modelled `none`. -/
def jsParseInt (s : List Char) : Option ℕ :=
  let t := s.dropWhile fun c => c = ' '
  let ds := t.takeWhile fun c => c.isDigit
  if ds.isEmpty then none else some (digitsVal ds)

/-- The character sequence of `` `rgb(${r}, ${g}, ${b})` `` for
non-negative channels. -/
def rgbChars (r g b : ℕ) : List Char :=
  'r' :: 'g' :: 'b' :: '(' ::
    (natChars r ++ ',' :: ' ' :: (natChars g ++ ',' :: ' ' :: (natChars b ++ [')'])))

/-- The text-color string `` `rgb(${Math.round(r)}, ${Math.round(g)},
${Math.round(b)})` `` built by `analyzeImageCore`. -/
def rgbStringOfColor (c : Color) : List Char :=
  'r' :: 'g' :: 'b' :: '(' ::
    (zChars (jsRound c.r) ++ ',' :: ' ' ::
      (zChars (jsRound c.g) ++ ',' :: ' ' :: (zChars (jsRound c.b) ++ [')'])))

/-- Helper for the regex model: the leading digit run and the remainder. -/
def munchNat (s : List Char) : Option (ℕ × List Char) :=
  let ds := s.takeWhile fun c => c.isDigit
  if ds.isEmpty then none else some (digitsVal ds, s.drop ds.length)

/-- Models `textColor.match(/rgb\((\d+),\s*(\d+),\s*(\d+)\)/)` on the
strings this analyzer constructs (`rgb(` at the start followed by the
three comma/space separated channels). -/
def parseRgbTriple (s : List Char) : Option (ℕ × ℕ × ℕ) :=
  match s with
  | 'r' :: 'g' :: 'b' :: '(' :: rest =>
    match munchNat rest with
    | none => none
    | some (r, t1) =>
      match t1 with
      | ',' :: t2 =>
        match munchNat (t2.dropWhile fun c => c = ' ') with
        | none => none
        | some (g, t3) =>
          match t3 with
          | ',' :: t4 =>
            match munchNat (t4.dropWhile fun c => c = ' ') with
            | none => none
            | some (b, t5) =>
              match t5 with
              | ')' :: _ => some (r, g, b)
              | _ => none
          | _ => none
      | _ => none
  | _ => none

/-- The black/white fallback of the text-color choice: black over a light
background (`luminance > 128`), white otherwise. -/
def bwTextColor (bg : Color) : List Char :=
  if getLuminance bg.r bg.g bg.b > 128 then "black".toList else "white".toList

/-- The text-color selection of `analyzeImageCore`: with
`useAverageCellColorForText`, scan the covered cells for the maximal
contrast against the average color of the rectangle (strict improvement,
so the first cell attaining the maximum wins) and use that cell color when
the
maximum exceeds 2.5; otherwise the black/white rule. -/
def chooseTextColor (useAvg : Bool) (best : FoundRectInfo) (cellStats : List CellStat)
    (grid : GridConfig) : List Char :=
  let rectBgColor := best.avgColor
  if useAvg then
    let cells := rectCellStats cellStats grid.cols best.shape best.rStart best.cStart
    let scan := cells.foldl
      (fun (acc : Option Color × ℚ) cs =>
        let contrast := calculateContrastRatio cs.avgColor rectBgColor
        if contrast > acc.2 then (some cs.avgColor, contrast) else acc)
      (none, 0)
    match scan.1 with
    | some c => if scan.2 > 2.5 then rgbStringOfColor c else bwTextColor rectBgColor
    | none => bwTextColor rectBgColor
  else bwTextColor rectBgColor

/-- The round-trip of the chosen text-color string back to an RGB object
(`black`, `white`, or the regex parse with a `{0,0,0}` fallback). -/
def textColorObjectOf (tc : List Char) : Color :=
  if tc = "black".toList then ⟨0, 0, 0⟩
  else if tc = "white".toList then ⟨255, 255, 255⟩
  else
    match parseRgbTriple tc with
    | some (r, g, b) => ⟨(r : ℚ), (g : ℚ), (b : ℚ)⟩
    | none => ⟨0, 0, 0⟩

/-- The pixel rectangle of an `AnalysisResult`. -/
structure RectPx where
  x : ℤ
  y : ℤ
  width : ℤ
  height : ℤ
deriving DecidableEq, Repr

/-- `AnalysisResult` from the source. -/
structure AnalysisResult where
  rect : RectPx
  textColor : List Char
  fontSize : ℚ
  avgBackgroundColor : Color
  aspectRatioName : String
  actualCells : ℤ × ℤ
  rectBusyness : Busy
  textContrastRatio : ℚ
deriving DecidableEq, Repr

/-- The `AnalysisResult` assembled from the winning rectangle: resolved
text color, contrast of the resolved color against the background, and the
initial font-size suggestion. -/
def buildAnalysisResult (grid : GridConfig) (cellStats : List CellStat) (useAvg : Bool)
    (best : FoundRectInfo) : AnalysisResult :=
  let chosen := chooseTextColor useAvg best cellStats grid
  let textColorObject := textColorObjectOf chosen
  let textContrastRatio := calculateContrastRatio textColorObject best.avgColor
  let singleCellHeightInRect := (best.height : ℚ) / (best.shape.rows : ℚ)
  let fontSize := max 12 (min (singleCellHeightInRect * 0.6)
    (min ((best.height : ℚ) * 0.3) ((best.width : ℚ) * 0.2)))
  { rect := ⟨best.x, best.y, best.width, best.height⟩
    textColor := chosen
    fontSize := fontSize
    avgBackgroundColor := best.avgColor
    aspectRatioName := best.shape.name
    actualCells := (best.shape.rows, best.shape.cols)
    rectBusyness := best.avgBusyness
    textContrastRatio := textContrastRatio }

/-- `ImageAnalysisCoreParams` from the source. -/
structure ImageAnalysisCoreParams where
  imageData : ImageDataM
  gridConfig : GridConfig
  targetAreaValue : ℤ
  useAverageCellColorForText : Bool
  borderExclusionCells : ℤ

/-- `ImageAnalysisCoreResult` from the source. -/
structure ImageAnalysisCoreResult where
  analysisResultData : Option AnalysisResult
  analysisDataForHover : Option AnalysisDataForHover

/-- `analyzeImageCore` from the source: zero-dimension guard, cell
statistics, hover snapshot, shape generation over the border-reduced grid,
rectangle search, text-color selection and result assembly.  `null`
results are modelled by `none`. -/
def analyzeImageCore (p : ImageAnalysisCoreParams) : ImageAnalysisCoreResult :=
  if p.imageData.width = 0 ∨ p.imageData.height = 0 then ⟨none, none⟩
  else
    let cellWidthPx : ℚ := (p.imageData.width : ℚ) / (p.gridConfig.cols : ℚ)
    let cellHeightPx : ℚ := (p.imageData.height : ℚ) / (p.gridConfig.rows : ℚ)
    let currentCellStats := computeCellStats p.imageData p.gridConfig
    let hover := mkHover p.imageData p.gridConfig
    let shapesToTest := generateShapesToTest p.targetAreaValue
      (p.gridConfig.rows - 2 * p.borderExclusionCells)
      (p.gridConfig.cols - 2 * p.borderExclusionCells)
    if shapesToTest = [] then ⟨none, some hover⟩
    else
      match searchBestRect shapesToTest currentCellStats p.gridConfig cellWidthPx
          cellHeightPx p.borderExclusionCells with
      | none => ⟨none, some hover⟩
      | some best =>
        ⟨some (buildAnalysisResult p.gridConfig currentCellStats
          p.useAverageCellColorForText best), some hover⟩

/-- The wrap loop of `wrapTextCanvas` (`for i = 1 ...`): extend the
current line when the extended line measures under `maxWidth`; otherwise
commit the current line and restart from the word, breaking out early
(dropping the remaining words) when an overlong word is met with no
committed lines. -/
def wrapLoop (measure : String → ℚ) (maxWidth : ℚ) :
    List String → List String → String → List String
  | [], lines, currentLine => if currentLine.isEmpty then lines else lines ++ [currentLine]
  | word :: rest, lines, currentLine =>
    let testLine := currentLine ++ (if currentLine.isEmpty then "" else " ") ++ word
    if measure testLine < maxWidth then wrapLoop measure maxWidth rest lines testLine
    else
      let lines1 := if currentLine.isEmpty then lines else lines ++ [currentLine]
      if measure word > maxWidth ∧ lines1 = [] then lines1 ++ [word]
      else wrapLoop measure maxWidth rest lines1 word

/-- `wrapTextCanvas` from the source, with `ctx.measureText(s).width`
abstracted as `measure` and the input text given as the word list
`text.split(' ')` produces (single-space splitting keeps empty pieces; the
`!text.trim()` guard holds exactly when every piece is empty, for the
space-separated texts this program wraps).  The early source `return
[currentLine]` when the first word overflows is kept as is. -/
def wrapTextCanvas (measure : String → ℚ) (words : List String) (maxWidth : ℚ) :
    List String :=
  if (words.all fun w => w.isEmpty) ∨ maxWidth ≤ 0 then []
  else
    match words with
    | [] => []
    | w0 :: rest =>
      if measure w0 > maxWidth then [w0]
      else wrapLoop measure maxWidth rest [] w0

/-- Joining lines with single spaces (the re-joining used to state the
word-wrap round-trip). -/
def joinSpace : List String → String
  | [] => ""
  | [w] => w
  | w :: ws => w ++ " " ++ joinSpace ws

/-- `TEXT_PADDING` from the source. -/
def TEXT_PADDING : ℚ := 10

/-- `LINE_HEIGHT_MULTIPLIER` from the source. -/
def LINE_HEIGHT_MULTIPLIER : ℚ := 1.2

/-- `MIN_RENDER_FONT_SIZE` from the source. -/
def MIN_RENDER_FONT_SIZE : ℚ := 8

/-- `CONTRAST_THRESHOLD_FOR_SCRIM` from the source. -/
def CONTRAST_THRESHOLD_FOR_SCRIM : ℚ := 4.0

/-- `BUSYNESS_THRESHOLD_FOR_SCRIM` from the source. -/
def BUSYNESS_THRESHOLD_FOR_SCRIM : ℚ := 500

/-- `parseInt(textColor.substring(a, b) || "0")`: JavaScript `substring`
is index-based (`drop a`, `take (b - a)`), and an empty substring falls
back to the string `"0"`. -/
def parseChannel (tc : List Char) (a b : ℕ) : Option ℕ :=
  let s := (tc.drop a).take (b - a)
  if s.isEmpty then some 0 else jsParseInt s

/-- The `textIsDark` test of the scrim: the literal `black`, or the
luminance of the three substring-parsed channels below 128 (any `NaN`
channel poisons the luminance, making the comparison false). -/
def jsTextIsDark (tc : List Char) : Bool :=
  decide (tc = "black".toList) ||
    (match parseChannel tc 4 7, parseChannel tc 9 12, parseChannel tc 14 17 with
     | some r, some g, some b => decide (getLuminance (r : ℚ) (g : ℚ) (b : ℚ) < 128)
     | _, _, _ => false)

/-- The scrim `fillRect` call: base color (as the `r,g,b` core of the
`rgba(...)` fill style), opacity, and the rectangle. -/
structure ScrimCall where
  color : String
  opacity : ℚ
  x : ℤ
  y : ℤ
  w : ℤ
  h : ℤ
deriving DecidableEq, Repr

/-- The observable output of `renderTextWithDynamicSizing`: the optional
scrim, the final font size, and the `fillText` calls (line, x, y). -/
structure RenderOut where
  scrim : Option ScrimCall
  fontSize : ℚ
  texts : List (String × ℚ × ℚ)
deriving DecidableEq, Repr

/-- The scrim drawn when needed: white base under dark text, black under
light text, opacity stepped by the contrast ratio. -/
def mkScrim (res : AnalysisResult) : ScrimCall :=
  { color := if jsTextIsDark res.textColor then "255,255,255" else "0,0,0"
    opacity :=
      if res.textContrastRatio < 2.5 then 0.7
      else if res.textContrastRatio < 3.5 then 0.6
      else 0.5
    x := res.rect.x
    y := res.rect.y
    w := res.rect.width
    h := res.rect.height }

/-- The clamped starting font size of the render loop:
`max(min(fontSize, height − 2·pad, (width − 2·pad)/2), 8)`. -/
def startFontSize (res : AnalysisResult) : ℚ :=
  max (min res.fontSize (min ((res.rect.height : ℚ) - 2 * TEXT_PADDING)
    (((res.rect.width : ℚ) - 2 * TEXT_PADDING) / 2))) MIN_RENDER_FONT_SIZE

/-- The font sizes tried by `for (currentSize = s; currentSize >= 8;
currentSize--)`: `s, s−1, …` down to the last value still `≥ 8` (the
starting size is always `≥ 8` after clamping). -/
def sizesToTry (s : ℚ) : List ℚ :=
  (List.range ((s - MIN_RENDER_FONT_SIZE).floor.toNat + 1)).map fun (i : ℕ) => s - (i : ℚ)

/-- The first (largest) tried font size whose wrap fits the padded
rectangle both in block height and per-line width, together with its lines
and block height; `none` when the padded interior is non-positive or no
tried size fits. -/
def fitResult (measure : ℚ → String → ℚ) (words : List String) (res : AnalysisResult) :
    Option (ℚ × List String × ℚ) :=
  let availableRectWidth : ℚ := (res.rect.width : ℚ) - 2 * TEXT_PADDING
  let availableRectHeight : ℚ := (res.rect.height : ℚ) - 2 * TEXT_PADDING
  if 0 < availableRectWidth ∧ 0 < availableRectHeight then
    (sizesToTry (startFontSize res)).findSome? fun currentSize =>
      let lines := wrapTextCanvas (measure currentSize) words availableRectWidth
      let currentBlockHeight := (lines.length : ℚ) * (currentSize * LINE_HEIGHT_MULTIPLIER)
      if currentBlockHeight ≤ availableRectHeight ∧
          (lines.all fun line => !decide (measure currentSize line > availableRectWidth)) then
        some (currentSize, lines, currentBlockHeight)
      else none
  else none

/-- `renderTextWithDynamicSizing` from the source, with the canvas
abstracted: `measure size line` models `ctx.measureText(line).width` under
`ctx.font = `${size}px Arial``, the input text is given as its word list,
and the draw calls are returned as data.  When no tried size fits (or the
padded interior is non-positive) no `fillText` call is made. -/
def renderTextWithDynamicSizing (measure : ℚ → String → ℚ) (words : List String)
    (res : AnalysisResult) (targetCanvasWidth targetCanvasHeight : ℚ) : RenderOut :=
  let needsScrim := res.textContrastRatio < CONTRAST_THRESHOLD_FOR_SCRIM ∨
    Busy.lt (.val BUSYNESS_THRESHOLD_FOR_SCRIM) res.rectBusyness
  let scrim := if needsScrim then some (mkScrim res) else none
  match fitResult measure words res with
  | none => ⟨scrim, startFontSize res, []⟩
  | some (renderFontSize, wrappedLines, textBlockHeight) =>
    match wrappedLines with
    | [] => ⟨scrim, renderFontSize, []⟩
    | _ :: _ =>
      let rectCenterX := (res.rect.x : ℚ) + (res.rect.width : ℚ) / 2
      let rectCenterY := (res.rect.y : ℚ) + (res.rect.height : ℚ) / 2
      let textDrawX : ℚ :=
        if rectCenterX < targetCanvasWidth * 0.35 then (res.rect.x : ℚ) + TEXT_PADDING
        else if rectCenterX > targetCanvasWidth * 0.65 then
          (res.rect.x : ℚ) + (res.rect.width : ℚ) - TEXT_PADDING
        else (res.rect.x : ℚ) + (res.rect.width : ℚ) / 2
      let availableRectHeight := (res.rect.height : ℚ) - 2 * TEXT_PADDING
      let blockStartY : ℚ :=
        if rectCenterY < targetCanvasHeight * 0.35 then (res.rect.y : ℚ) + TEXT_PADDING
        else if rectCenterY > targetCanvasHeight * 0.65 then
          (res.rect.y : ℚ) + (res.rect.height : ℚ) - TEXT_PADDING - textBlockHeight
        else (res.rect.y : ℚ) + TEXT_PADDING + (availableRectHeight - textBlockHeight) / 2
      let lineHeight := renderFontSize * LINE_HEIGHT_MULTIPLIER
      ⟨scrim, renderFontSize,
        wrappedLines.enum.map fun il => (il.2, textDrawX, blockStartY + (il.1 : ℚ) * lineHeight)⟩

/-! Order facts about `Busy`, mirroring the JavaScript comparisons the
search relies on. -/

lemma Busy.le_inf : ∀ a : Busy, a.le Busy.inf
  | .val _ => trivial
  | .inf => trivial

lemma Busy.refl_le : ∀ a : Busy, a.le a
  | .val _ => le_rfl
  | .inf => trivial

lemma Busy.lt_le : ∀ {a b : Busy}, a.lt b → a.le b
  | .val _, .val _, h => le_of_lt h
  | .val _, .inf, _ => trivial
  | .inf, _, h => h.elim

lemma Busy.nlt_le : ∀ {a b : Busy}, ¬a.lt b → b.le a
  | .val _, .val _, h => le_of_not_lt h
  | .val _, .inf, h => (h trivial).elim
  | .inf, .inf, _ => trivial
  | .inf, .val _, _ => trivial

lemma Busy.trans_le : ∀ {a b c : Busy}, a.le b → b.le c → a.le c
  | .val _, .val _, .val _, h1, h2 => le_trans h1 h2
  | a, _, .inf, _, _ => Busy.le_inf a
  | .val _, .inf, .val _, _, h2 => h2.elim
  | .inf, .val _, .val _, h1, _ => h1.elim

lemma Busy.trans_lt_le : ∀ {a b c : Busy}, a.lt b → b.le c → a.lt c
  | .val _, .val _, .val _, h1, h2 => lt_of_lt_of_le h1 h2
  | .val _, .val _, .inf, _, _ => trivial
  | .val _, .inf, .inf, _, _ => trivial
  | .val _, .inf, .val _, _, h2 => h2.elim
  | .inf, _, _, h1, _ => h1.elim

lemma Busy.ne_inf_of_lt : ∀ {a b : Busy}, a.lt b → a ≠ Busy.inf
  | .val _, _, _ => fun h => Busy.noConfusion h
  | .inf, _, h => h.elim

lemma Busy.lt_inf_of_ne : ∀ {a : Busy}, a ≠ Busy.inf → a.lt Busy.inf
  | .val _, _ => trivial
  | .inf, h => (h rfl).elim

lemma Busy.eq_inf_of_not_lt_inf : ∀ {a : Busy}, ¬a.lt Busy.inf → a = Busy.inf
  | .val _, h => (h trivial).elim
  | .inf, _ => rfl

/-! The selection folds compute the first minimum. -/

/-- `r` attains the minimum average busyness over `cs` and is the first
element of `cs` to do so (all earlier candidates are strictly busier). -/
def IsFirstMin (r : FoundRectInfo) (cs : List FoundRectInfo) : Prop :=
  (∀ c ∈ cs, r.avgBusyness.le c.avgBusyness) ∧
    ∃ pre post, cs = pre ++ r :: post ∧ ∀ c ∈ pre, r.avgBusyness.lt c.avgBusyness

/-- Invariant of the `(bestRect, minAvgBusyness)` state after processing
the candidate prefix `P`. -/
def SelInv (P : List FoundRectInfo) (acc : Option FoundRectInfo × Busy) : Prop :=
  match acc with
  | (none, m) => m = Busy.inf ∧ ∀ c ∈ P, c.avgBusyness = Busy.inf
  | (some r, m) => m = r.avgBusyness ∧ r.avgBusyness ≠ Busy.inf ∧ IsFirstMin r P

lemma selStep_inv {P : List FoundRectInfo} {acc : Option FoundRectInfo × Busy}
    {c : FoundRectInfo} (h : SelInv P acc) : SelInv (P ++ [c]) (selStep acc c) := by
  obtain ⟨best, m⟩ := acc
  cases best with
  | none =>
    obtain ⟨hm, hall⟩ := h
    subst hm
    by_cases hlt : c.avgBusyness.lt Busy.inf
    · have hstep : selStep (none, Busy.inf) c = (some c, c.avgBusyness) := by
        unfold selStep; rw [if_pos hlt]
      rw [hstep]
      refine ⟨rfl, Busy.ne_inf_of_lt hlt, fun x hx => ?_, P, [], rfl, fun x hx => ?_⟩
      · rcases List.mem_append.1 hx with h' | h'
        · rw [hall x h']; exact Busy.le_inf _
        · simp only [List.mem_singleton] at h'
          subst h'; exact Busy.refl_le _
      · rw [hall x hx]
        exact Busy.lt_inf_of_ne (Busy.ne_inf_of_lt hlt)
    · have hstep : selStep (none, Busy.inf) c = (none, Busy.inf) := by
        unfold selStep; rw [if_neg hlt]
      rw [hstep]
      refine ⟨rfl, fun x hx => ?_⟩
      rcases List.mem_append.1 hx with h' | h'
      · exact hall x h'
      · simp only [List.mem_singleton] at h'
        subst h'; exact Busy.eq_inf_of_not_lt_inf hlt
  | some r =>
    obtain ⟨hm, hne, hmin, pre, post, heq, hpre⟩ := h
    subst hm
    by_cases hlt : c.avgBusyness.lt r.avgBusyness
    · have hstep : selStep (some r, r.avgBusyness) c = (some c, c.avgBusyness) := by
        unfold selStep; rw [if_pos hlt]
      rw [hstep]
      refine ⟨rfl, Busy.ne_inf_of_lt (Busy.trans_lt_le hlt (Busy.lt_inf_of_ne hne |> Busy.lt_le)),
        fun x hx => ?_, P, [], rfl, fun x hx => ?_⟩
      · rcases List.mem_append.1 hx with h' | h'
        · exact Busy.lt_le (Busy.trans_lt_le hlt (hmin x h'))
        · simp only [List.mem_singleton] at h'
          subst h'; exact Busy.refl_le _
      · exact Busy.trans_lt_le hlt (hmin x hx)
    · have hstep : selStep (some r, r.avgBusyness) c = (some r, r.avgBusyness) := by
        unfold selStep; rw [if_neg hlt]
      rw [hstep]
      refine ⟨rfl, hne, fun x hx => ?_, pre, post ++ [c], ?_, hpre⟩
      · rcases List.mem_append.1 hx with h' | h'
        · exact hmin x h'
        · simp only [List.mem_singleton] at h'
          subst h'; exact Busy.nlt_le hlt
      · rw [heq]; simp

lemma foldl_selStep_inv :
    ∀ (cs : List FoundRectInfo) (acc : Option FoundRectInfo × Busy)
      (P : List FoundRectInfo), SelInv P acc → SelInv (P ++ cs) (cs.foldl selStep acc)
  | [], _, P, h => by simpa using h
  | c :: cs, acc, P, h => by
    have h2 := foldl_selStep_inv cs (selStep acc c) (P ++ [c]) (selStep_inv h)
    simpa [List.append_assoc] using h2

lemma findBest_eq_some {shape : Shape} {cellStats : List CellStat} {grid : GridConfig}
    {cw ch : ℚ} {b : ℤ} {r : FoundRectInfo}
    (h : findBestRectForGivenShape shape cellStats grid cw ch b = some r) :
    r.avgBusyness ≠ Busy.inf ∧ IsFirstMin r (candidatesFor cellStats grid cw ch b shape) := by
  have hinv := foldl_selStep_inv (candidatesFor cellStats grid cw ch b shape)
    (none, Busy.inf) [] ⟨rfl, by simp⟩
  rw [List.nil_append] at hinv
  unfold findBestRectForGivenShape at h
  rcases hx : (candidatesFor cellStats grid cw ch b shape).foldl selStep (none, Busy.inf)
    with ⟨b1, m1⟩
  rw [hx] at h hinv
  cases b1 with
  | none => simp at h
  | some r1 =>
    simp only at h
    have hr : r1 = r := Option.some.inj h
    subst hr
    exact ⟨hinv.2.1, hinv.2.2⟩

lemma findBest_eq_none {shape : Shape} {cellStats : List CellStat} {grid : GridConfig}
    {cw ch : ℚ} {b : ℤ}
    (h : findBestRectForGivenShape shape cellStats grid cw ch b = none) :
    ∀ c ∈ candidatesFor cellStats grid cw ch b shape, c.avgBusyness = Busy.inf := by
  have hinv := foldl_selStep_inv (candidatesFor cellStats grid cw ch b shape)
    (none, Busy.inf) [] ⟨rfl, by simp⟩
  rw [List.nil_append] at hinv
  unfold findBestRectForGivenShape at h
  rcases hx : (candidatesFor cellStats grid cw ch b shape).foldl selStep (none, Busy.inf)
    with ⟨b1, m1⟩
  rw [hx] at h hinv
  cases b1 with
  | none => exact hinv.2
  | some r1 => simp at h

/-- Invariant of `overallBestRect` after processing the shape prefix `S`. -/
def OutInv (cellStats : List CellStat) (grid : GridConfig) (cw ch : ℚ) (b : ℤ)
    (S : List Shape) (best : Option FoundRectInfo) : Prop :=
  match best with
  | none => ∀ c ∈ S.flatMap (candidatesFor cellStats grid cw ch b), c.avgBusyness = Busy.inf
  | some r => r.avgBusyness ≠ Busy.inf ∧
      IsFirstMin r (S.flatMap (candidatesFor cellStats grid cw ch b))

lemma outStep_inv {cellStats : List CellStat} {grid : GridConfig} {cw ch : ℚ} {b : ℤ}
    {S : List Shape} {best : Option FoundRectInfo} {sh : Shape}
    (h : OutInv cellStats grid cw ch b S best) :
    OutInv cellStats grid cw ch b (S ++ [sh]) (outStep cellStats grid cw ch b best sh) := by
  have hflat : (S ++ [sh]).flatMap (candidatesFor cellStats grid cw ch b) =
      S.flatMap (candidatesFor cellStats grid cw ch b) ++
        candidatesFor cellStats grid cw ch b sh := by simp
  unfold outStep
  rcases hf : findBestRectForGivenShape sh cellStats grid cw ch b with _ | ri
  · have hall := findBest_eq_none hf
    cases best with
    | none =>
      simp only [OutInv] at h ⊢
      rw [hflat]
      intro x hx
      rcases List.mem_append.1 hx with h' | h'
      · exact h x h'
      · exact hall x h'
    | some ob =>
      simp only [OutInv, IsFirstMin] at h ⊢
      obtain ⟨hne, hmin, pre, post, heq, hpre⟩ := h
      refine ⟨hne, fun x hx => ?_, pre, post ++ candidatesFor cellStats grid cw ch b sh, ?_, hpre⟩
      · rw [hflat] at hx
        rcases List.mem_append.1 hx with h' | h'
        · exact hmin x h'
        · rw [hall x h']; exact Busy.le_inf _
      · rw [hflat, heq]; simp
  · obtain ⟨hni, hfm⟩ := findBest_eq_some hf
    simp only [IsFirstMin] at hfm
    obtain ⟨hmin_i, pre_i, post_i, heq_i, hpre_i⟩ := hfm
    cases best with
    | none =>
      simp only [OutInv, IsFirstMin] at h ⊢
      refine ⟨hni, fun x hx => ?_,
        S.flatMap (candidatesFor cellStats grid cw ch b) ++ pre_i, post_i, ?_, fun x hx => ?_⟩
      · rw [hflat] at hx
        rcases List.mem_append.1 hx with h' | h'
        · rw [h x h']; exact Busy.le_inf _
        · exact hmin_i x h'
      · rw [hflat, heq_i, List.append_assoc]
      · rcases List.mem_append.1 hx with h' | h'
        · rw [h x h']; exact Busy.lt_inf_of_ne hni
        · exact hpre_i x h'
    | some ob =>
      simp only [OutInv, IsFirstMin] at h ⊢
      obtain ⟨hne_o, hmin_o, pre_o, post_o, heq_o, hpre_o⟩ := h
      by_cases hlt : ri.avgBusyness.lt ob.avgBusyness
      · rw [if_pos hlt]
        refine ⟨hni, fun x hx => ?_,
          S.flatMap (candidatesFor cellStats grid cw ch b) ++ pre_i, post_i, ?_, fun x hx => ?_⟩
        · rw [hflat] at hx
          rcases List.mem_append.1 hx with h' | h'
          · exact Busy.lt_le (Busy.trans_lt_le hlt (hmin_o x h'))
          · exact hmin_i x h'
        · rw [hflat, heq_i, List.append_assoc]
        · rcases List.mem_append.1 hx with h' | h'
          · exact Busy.trans_lt_le hlt (hmin_o x h')
          · exact hpre_i x h'
      · rw [if_neg hlt]
        have hle : ob.avgBusyness.le ri.avgBusyness := Busy.nlt_le hlt
        refine ⟨hne_o, fun x hx => ?_, pre_o,
          post_o ++ candidatesFor cellStats grid cw ch b sh, ?_, hpre_o⟩
        · rw [hflat] at hx
          rcases List.mem_append.1 hx with h' | h'
          · exact hmin_o x h'
          · exact Busy.trans_le hle (hmin_i x h')
        · rw [hflat, heq_o]; simp

lemma foldl_outStep_inv {cellStats : List CellStat} {grid : GridConfig} {cw ch : ℚ} {b : ℤ} :
    ∀ (shs : List Shape) (best : Option FoundRectInfo) (S : List Shape),
      OutInv cellStats grid cw ch b S best →
      OutInv cellStats grid cw ch b (S ++ shs)
        (shs.foldl (outStep cellStats grid cw ch b) best)
  | [], _, S, h => by simpa using h
  | sh :: shs, best, S, h => by
    have h2 := foldl_outStep_inv shs (outStep cellStats grid cw ch b best sh) (S ++ [sh])
      (outStep_inv h)
    simpa [List.append_assoc] using h2

lemma searchBestRect_spec {shapes : List Shape} {cellStats : List CellStat}
    {grid : GridConfig} {cw ch : ℚ} {b : ℤ} {r : FoundRectInfo}
    (h : searchBestRect shapes cellStats grid cw ch b = some r) :
    r.avgBusyness ≠ Busy.inf ∧ IsFirstMin r (allCandidates shapes cellStats grid cw ch b) := by
  have hinv := @foldl_outStep_inv cellStats grid cw ch b shapes none [] (by simp [OutInv])
  rw [List.nil_append] at hinv
  unfold searchBestRect at h
  rw [h] at hinv
  simp only [OutInv] at hinv
  exact ⟨hinv.1, hinv.2⟩

lemma mem_intRangeList {x lo hi : ℤ} (hx : x ∈ intRangeList lo hi) : lo ≤ x ∧ x ≤ hi := by
  unfold intRangeList at hx
  obtain ⟨i, hi', rfl⟩ := List.mem_map.1 hx
  have h1 := List.mem_range.1 hi'
  omega

lemma mem_positionsFor {grid : GridConfig} {shape : Shape} {b : ℤ} {p : ℤ × ℤ}
    (hp : p ∈ positionsFor grid shape b) :
    b ≤ p.1 ∧ p.1 ≤ grid.rows - shape.rows - b ∧
      b ≤ p.2 ∧ p.2 ≤ grid.cols - shape.cols - b := by
  unfold positionsFor at hp
  obtain ⟨rS, hrS, hmem⟩ := List.mem_flatMap.1 hp
  obtain ⟨cS, hcS, rfl⟩ := List.mem_map.1 hmem
  have h1 := mem_intRangeList hrS
  have h2 := mem_intRangeList hcS
  exact ⟨h1.1, h1.2, h2.1, h2.2⟩

lemma mem_candidatesFor {cellStats : List CellStat} {grid : GridConfig} {cw ch : ℚ}
    {b : ℤ} {shape : Shape} {r : FoundRectInfo}
    (hr : r ∈ candidatesFor cellStats grid cw ch b shape) :
    ∃ p ∈ positionsFor grid shape b, r = evalRectAt cellStats grid.cols cw ch shape p := by
  unfold candidatesFor at hr
  split at hr
  · simp at hr
  · obtain ⟨p, hp, hsome⟩ := List.mem_filterMap.1 hr
    split at hsome
    · simp at hsome
    · exact ⟨p, hp, (Option.some.inj hsome).symm⟩

/-- C2: whenever the rectangle search returns a candidate, that
`avgBusyness` of that candidate attains the minimum of the average busyness over
all tested (shape, position) pairs — `allCandidates` enumerates them with
shapes in generation order and positions in row-major order — and on exact
ties the first-encountered pair wins: the candidate occurs in that
enumeration with every earlier pair strictly busier. -/
theorem searchBestRect_firstMin_spec (shapes : List Shape) (cellStats : List CellStat)
    (grid : GridConfig) (cw ch : ℚ) (b : ℤ) (r : FoundRectInfo)
    (h : searchBestRect shapes cellStats grid cw ch b = some r) :
    IsFirstMin r (allCandidates shapes cellStats grid cw ch b) :=
  (searchBestRect_spec h).2

/-- A 1×2 grid with the busier cell first: the search must pick the second
position. -/
def demoStats : List CellStat := [⟨⟨0, 0, 0⟩, .val 3⟩, ⟨⟨0, 0, 0⟩, .val 1⟩]

/-- The grid of the demo search. -/
def demoGrid : GridConfig := ⟨1, 2⟩

/-- The single 1×1 shape of the demo search. -/
def demoShapes : List Shape := [⟨"square", 1, 1⟩]

/-- The rectangle the demo search returns. -/
def demoRect : FoundRectInfo :=
  ⟨1, 0, 1, 1, ⟨0, 0, 0⟩, 0, 1, .val 1, ⟨"square", 1, 1⟩⟩

theorem searchBestRect_firstMin_witness :
    IsFirstMin demoRect (allCandidates demoShapes demoStats demoGrid 1 1 0) :=
  searchBestRect_firstMin_spec demoShapes demoStats demoGrid 1 1 0 demoRect
    (by with_unfolding_all decide)

/-- The grid footprint of the returned rectangle stays inside the
border-excluded grid on both axes. -/
def RectFootprintOK (grid : GridConfig) (borderExclusion : ℤ) (r : FoundRectInfo) : Prop :=
  borderExclusion ≤ r.rStart ∧ r.rStart + r.shape.rows ≤ grid.rows - borderExclusion ∧
    borderExclusion ≤ r.cStart ∧ r.cStart + r.shape.cols ≤ grid.cols - borderExclusion

/-- C6: for every grid with at least one row and column and every
non-negative border exclusion, any rectangle returned by the search
satisfies `borderExclusion ≤ rStart`,
`rStart + shape.rows ≤ rows − borderExclusion`, and the same bounds on the
column axis. -/
theorem searchBestRect_bounds_spec (shapes : List Shape) (cellStats : List CellStat)
    (grid : GridConfig) (cw ch : ℚ) (b : ℤ) (r : FoundRectInfo)
    (hrows : 1 ≤ grid.rows) (hcols : 1 ≤ grid.cols) (hb : 0 ≤ b)
    (h : searchBestRect shapes cellStats grid cw ch b = some r) :
    RectFootprintOK grid b r := by
  have hfm := (searchBestRect_spec h).2
  unfold IsFirstMin at hfm
  obtain ⟨_, pre, post, heq, _⟩ := hfm
  have hr : r ∈ allCandidates shapes cellStats grid cw ch b := by rw [heq]; simp
  unfold allCandidates at hr
  obtain ⟨sh, _, hc⟩ := List.mem_flatMap.1 hr
  obtain ⟨p, hp, rfl⟩ := mem_candidatesFor hc
  have hb4 := mem_positionsFor hp
  obtain ⟨h1, h2, h3, h4⟩ := hb4
  simp only [RectFootprintOK, evalRectAt]
  refine ⟨by omega, by omega, by omega, by omega⟩

theorem searchBestRect_bounds_witness : RectFootprintOK demoGrid 0 demoRect :=
  searchBestRect_bounds_spec demoShapes demoStats demoGrid 1 1 0 demoRect
    (by decide) (by decide) (by decide) (by with_unfolding_all decide)

/-- The per-shape guarantees of the generator: positive footprint inside
the bounds and at least 80% of the target area. -/
def shapeOK (t mr mc : ℤ) (s : Shape) : Prop :=
  1 ≤ s.rows ∧ s.rows ≤ mr ∧ 1 ≤ s.cols ∧ s.cols ≤ mc ∧
    (t : ℚ) * 0.8 ≤ (s.rows : ℚ) * (s.cols : ℚ)

/-- No two generated shapes share a `(rows, cols)` pair. -/
def ShapesDistinct (l : List Shape) : Prop :=
  l.Pairwise fun a b => ¬(a.rows = b.rows ∧ a.cols = b.cols)

lemma addShape_preserves (t mr mc : ℤ) (l : List Shape) (r c : ℤ)
    (hall : ∀ s ∈ l, shapeOK t mr mc s) (hpw : ShapesDistinct l) :
    (∀ s ∈ addShape t mr mc l r c, shapeOK t mr mc s) ∧
      ShapesDistinct (addShape t mr mc l r c) := by
  unfold addShape
  split
  · exact ⟨hall, hpw⟩
  · next hguard =>
    push_neg at hguard
    obtain ⟨h1, h2, h3, h4, h5⟩ := hguard
    split
    · exact ⟨hall, hpw⟩
    · next hany =>
      simp only [List.any_eq_true, decide_eq_true_eq, not_exists, not_and] at hany
      have hnew : shapeOK t mr mc ⟨classifyName r c, r, c⟩ := by
        unfold shapeOK
        refine ⟨?_, ?_, ?_, ?_, ?_⟩
        · show (1 : ℤ) ≤ r; omega
        · show r ≤ mr; exact h3
        · show (1 : ℤ) ≤ c; omega
        · show c ≤ mc; exact h4
        · show (t : ℚ) * 0.8 ≤ (r : ℚ) * (c : ℚ)
          push_cast at h5 ⊢
          linarith
      constructor
      · intro s hs
        rcases List.mem_append.1 hs with h' | h'
        · exact hall s h'
        · simp only [List.mem_singleton] at h'
          subst h'; exact hnew
      · unfold ShapesDistinct at hpw ⊢
        refine List.pairwise_append.2 ⟨hpw, List.pairwise_singleton _ _, ?_⟩
        intro a ha b hb
        simp only [List.mem_singleton] at hb
        subst hb
        intro hh
        exact hany a ha hh.1 hh.2

lemma foldl_addShape (t mr mc : ℤ) :
    ∀ (attempts : List (ℤ × ℤ)) (l : List Shape),
      (∀ s ∈ l, shapeOK t mr mc s) → ShapesDistinct l →
      (∀ s ∈ attempts.foldl (fun acc rc => addShape t mr mc acc rc.1 rc.2) l,
          shapeOK t mr mc s) ∧
        ShapesDistinct (attempts.foldl (fun acc rc => addShape t mr mc acc rc.1 rc.2) l)
  | [], _, hall, hpw => ⟨hall, hpw⟩
  | rc :: rest, l, hall, hpw => by
    have h1 := addShape_preserves t mr mc l rc.1 rc.2 hall hpw
    simpa using foldl_addShape t mr mc rest (addShape t mr mc l rc.1 rc.2) h1.1 h1.2

/-- The conclusion of the shape-generator claim at given inputs. -/
def ShapesSpec (t mr mc : ℤ) : Prop :=
  (∀ s ∈ generateShapesToTest t mr mc, shapeOK t mr mc s) ∧
    ShapesDistinct (generateShapesToTest t mr mc)

/-- C7: for every `targetArea ≥ 1` and bounds, every shape returned by
`generateShapesToTest` has `1 ≤ rows ≤ maxRows`, `1 ≤ cols ≤ maxCols` and
`rows × cols ≥ targetArea × 0.8`, and no two returned shapes share the
same `(rows, cols)` pair. -/
theorem generateShapesToTest_spec (t mr mc : ℤ) (ht : 1 ≤ t) : ShapesSpec t mr mc := by
  unfold ShapesSpec generateShapesToTest
  exact foldl_addShape t mr mc _ [] (by simp) List.Pairwise.nil

theorem generateShapesToTest_witness : ShapesSpec 12 10 10 :=
  generateShapesToTest_spec 12 10 10 (by norm_num)

/-! Word wrap: the degenerate-width guard and the round trip. -/

/-- C10: for every non-positive maximum width, `wrapTextCanvas` returns
the empty list of lines, regardless of the input text and the measure
function. -/
theorem wrapTextCanvas_nonpositive_width (measure : String → ℚ) (words : List String)
    (maxWidth : ℚ) (h : maxWidth ≤ 0) : wrapTextCanvas measure words maxWidth = [] := by
  unfold wrapTextCanvas
  rw [if_pos (Or.inr h)]

theorem wrapTextCanvas_nonpositive_width_witness :
    wrapTextCanvas (fun s => (s.length : ℚ)) ["a"] 0 = [] :=
  wrapTextCanvas_nonpositive_width (fun s => (s.length : ℚ)) ["a"] 0 le_rfl

lemma isEmpty_false_of_ne {s : String} (h : s ≠ "") : s.isEmpty = false := by
  rcases hb : s.isEmpty with _ | _
  · rfl
  · exact (h ((String.isEmpty_iff s).1 hb)).elim

lemma length_eq_zero_imp_empty {s : String} (h : s.length = 0) : s = "" := by
  have hd : s.data = [] := List.length_eq_zero.1 h
  apply String.ext
  rw [hd]

lemma append_sep_ne_empty (cur word : String) (h : cur ≠ "") : cur ++ " " ++ word ≠ "" := by
  intro hh
  have hlen := congrArg String.length hh
  simp only [String.length_append] at hlen
  have hsp : (" " : String).length = 1 := rfl
  have h0 : ("" : String).length = 0 := rfl
  exact h (length_eq_zero_imp_empty (by omega))

lemma joinSpace_cons_ne {w : String} {ws : List String} (h : ws ≠ []) :
    joinSpace (w :: ws) = w ++ " " ++ joinSpace ws := by
  cases ws with
  | nil => exact (h rfl).elim
  | cons a t => rfl

lemma joinSpace_append_merge (a b : String) :
    ∀ (l r : List String),
      joinSpace (l ++ (a ++ " " ++ b) :: r) = joinSpace (l ++ a :: b :: r)
  | [], r => by
    cases r with
    | nil => simp [joinSpace]
    | cons x t =>
      rw [List.nil_append, List.nil_append,
        joinSpace_cons_ne (List.cons_ne_nil x t),
        joinSpace_cons_ne (List.cons_ne_nil b (x :: t)),
        joinSpace_cons_ne (List.cons_ne_nil x t)]
      simp [String.append_assoc]
  | w :: l, r => by
    have h1 : (l ++ (a ++ " " ++ b) :: r) ≠ [] := by simp
    have h2 : (l ++ a :: b :: r) ≠ [] := by simp
    rw [List.cons_append, List.cons_append, joinSpace_cons_ne h1, joinSpace_cons_ne h2,
      joinSpace_append_merge a b l r]

lemma wrapLoop_joinSpace (measure : String → ℚ) (maxWidth : ℚ) :
    ∀ (rest lines : List String) (cur : String), cur ≠ "" → (∀ w ∈ rest, w ≠ "") →
      joinSpace (wrapLoop measure maxWidth rest lines cur) = joinSpace (lines ++ cur :: rest)
  | [], lines, cur, hcur, _ => by
    unfold wrapLoop
    rw [isEmpty_false_of_ne hcur]
    simp
  | word :: rest, lines, cur, hcur, hall => by
    have hword : word ≠ "" := hall word (List.mem_cons_self word rest)
    have hrest : ∀ w ∈ rest, w ≠ "" := fun w hw => hall w (List.mem_cons_of_mem word hw)
    unfold wrapLoop
    rw [isEmpty_false_of_ne hcur]
    simp only [Bool.false_eq_true, if_false]
    by_cases hfit : measure (cur ++ " " ++ word) < maxWidth
    · rw [if_pos hfit,
        wrapLoop_joinSpace measure maxWidth rest lines (cur ++ " " ++ word)
          (append_sep_ne_empty cur word hcur) hrest]
      exact joinSpace_append_merge cur word lines rest
    · rw [if_neg hfit]
      have hl1 : (lines ++ [cur]) ≠ [] := by simp
      rw [if_neg (fun hh => hl1 hh.2),
        wrapLoop_joinSpace measure maxWidth rest (lines ++ [cur]) word hword hrest]
      rw [List.append_assoc, List.singleton_append]

lemma wrapTextCanvas_cons (measure : String → ℚ) (maxWidth : ℚ) (w0 : String)
    (ws : List String)
    (hguard : ¬(((w0 :: ws).all fun w => w.isEmpty) = true ∨ maxWidth ≤ 0)) :
    wrapTextCanvas measure (w0 :: ws) maxWidth =
      if measure w0 > maxWidth then [w0] else wrapLoop measure maxWidth ws [] w0 := by
  unfold wrapTextCanvas
  rw [if_neg hguard]

/-- C3 counterexample: with the character-count measure, width 1 and the
two words `aa b`, the first word overflows, the source returns `["aa"]`
and drops `b`, so re-joining the wrapped lines with single spaces does not
reproduce the (already whitespace-normalized) text. -/
theorem wrapTextCanvas_roundTrip_cex :
    joinSpace (wrapTextCanvas (fun s => (s.length : ℚ)) ["aa", "b"] 1) ≠
      joinSpace ["aa", "b"] := by
  with_unfolding_all decide

/-- C3 amended: for a single-space-separated sequence of nonempty words
and a positive maximum width, re-joining the lines of `wrapTextCanvas`
with single spaces reproduces the text whenever the measured width of the
first word is within the maximum; when the first word measures strictly wider,
the result is exactly that first word alone and the remaining words are
dropped. -/
theorem wrapTextCanvas_roundTrip_amended (measure : String → ℚ) (maxWidth : ℚ)
    (w0 : String) (ws : List String) (hmw : 0 < maxWidth) (hw0 : w0 ≠ "")
    (hws : ∀ w ∈ ws, w ≠ "") :
    (measure w0 ≤ maxWidth →
      joinSpace (wrapTextCanvas measure (w0 :: ws) maxWidth) = joinSpace (w0 :: ws)) ∧
    (measure w0 > maxWidth → wrapTextCanvas measure (w0 :: ws) maxWidth = [w0]) := by
  have hguard : ¬(((w0 :: ws).all fun w => w.isEmpty) = true ∨ maxWidth ≤ 0) := by
    rintro (hall | hle)
    · have := List.all_eq_true.1 hall w0 (List.mem_cons_self w0 ws)
      exact hw0 ((String.isEmpty_iff w0).1 this)
    · exact absurd hmw (not_lt.2 hle)
  constructor
  · intro hfits
    rw [wrapTextCanvas_cons measure maxWidth w0 ws hguard, if_neg (not_lt.2 hfits),
      wrapLoop_joinSpace measure maxWidth ws [] w0 hw0 hws, List.nil_append]
  · intro hover
    rw [wrapTextCanvas_cons measure maxWidth w0 ws hguard, if_pos hover]

theorem wrapTextCanvas_roundTrip_amended_witness :
    joinSpace (wrapTextCanvas (fun s => (s.length : ℚ)) ("ab" :: ["c"]) 10) =
      joinSpace ("ab" :: ["c"]) :=
  (wrapTextCanvas_roundTrip_amended (fun s => (s.length : ℚ)) 10 "ab" ["c"]
    (by norm_num) (by decide) (by decide)).1 (by with_unfolding_all decide)

/-! The scrim decision of the renderer. -/

/-- The scrim is present exactly when the contrast or busyness thresholds
fire, with the stepped opacity. -/
def ScrimSpec (out : RenderOut) (res : AnalysisResult) : Prop :=
  (out.scrim ≠ none ↔
    (res.textContrastRatio < CONTRAST_THRESHOLD_FOR_SCRIM ∨
      Busy.lt (.val BUSYNESS_THRESHOLD_FOR_SCRIM) res.rectBusyness)) ∧
  ∀ sc, out.scrim = some sc →
    (res.textContrastRatio < 2.5 → sc.opacity = 0.7) ∧
    (2.5 ≤ res.textContrastRatio → res.textContrastRatio < 3.5 → sc.opacity = 0.6) ∧
    (3.5 ≤ res.textContrastRatio → sc.opacity = 0.5)

lemma render_scrim_eq (measure : ℚ → String → ℚ) (words : List String)
    (res : AnalysisResult) (cw chh : ℚ) :
    (renderTextWithDynamicSizing measure words res cw chh).scrim =
      if res.textContrastRatio < CONTRAST_THRESHOLD_FOR_SCRIM ∨
          Busy.lt (.val BUSYNESS_THRESHOLD_FOR_SCRIM) res.rectBusyness
        then some (mkScrim res) else none := by
  unfold renderTextWithDynamicSizing
  rcases hf : fitResult measure words res with _ | ⟨s, lines, bh⟩
  · rfl
  · cases lines <;> rfl

/-- C8: for every `AnalysisResult` passed to the renderer, the translucent
scrim is drawn if and only if `textContrastRatio < 4.0` or
`rectBusyness > 500`, with opacity `0.7` when `textContrastRatio < 2.5`,
`0.6` when `2.5 ≤ textContrastRatio < 3.5`, and `0.5` otherwise. -/
theorem render_scrim_spec (measure : ℚ → String → ℚ) (words : List String)
    (res : AnalysisResult) (cw chh : ℚ) :
    ScrimSpec (renderTextWithDynamicSizing measure words res cw chh) res := by
  constructor
  · rw [render_scrim_eq]
    by_cases h : res.textContrastRatio < CONTRAST_THRESHOLD_FOR_SCRIM ∨
        Busy.lt (.val BUSYNESS_THRESHOLD_FOR_SCRIM) res.rectBusyness
    · rw [if_pos h]; simp [h]
    · rw [if_neg h]; simp [h]
  · intro sc hsc
    rw [render_scrim_eq] at hsc
    by_cases h : res.textContrastRatio < CONTRAST_THRESHOLD_FOR_SCRIM ∨
        Busy.lt (.val BUSYNESS_THRESHOLD_FOR_SCRIM) res.rectBusyness
    · rw [if_pos h] at hsc
      have hsc2 : sc = mkScrim res := (Option.some.inj hsc).symm
      subst hsc2
      unfold mkScrim
      refine ⟨fun h1 => ?_, fun h2 h3 => ?_, fun h4 => ?_⟩
      · simp only
        rw [if_pos h1]
      · simp only
        rw [if_neg (not_lt.2 h2), if_pos h3]
      · simp only
        rw [if_neg (not_lt.2 (le_trans (by norm_num) h4)), if_neg (not_lt.2 h4)]
    · rw [if_neg h] at hsc
      exact absurd hsc (by simp)

/-- A result with contrast ratio 2 and zero busyness: the scrim fires on
the contrast threshold with opacity 0.7. -/
def scrimDemoRes : AnalysisResult :=
  ⟨⟨0, 0, 100, 100⟩, "white".toList, 12, ⟨0, 0, 0⟩, "square", (1, 1), .val 0, 2⟩

theorem render_scrim_witness :
    ScrimSpec (renderTextWithDynamicSizing (fun _ _ => 0) ["a"] scrimDemoRes 100 100)
      scrimDemoRes :=
  render_scrim_spec (fun _ _ => 0) ["a"] scrimDemoRes 100 100

/-- A 40×40 rectangle: padded interior 20×20 is positive, yet an overlong
single word cannot fit at any tried size. -/
def noFitRes : AnalysisResult :=
  ⟨⟨0, 0, 40, 40⟩, "white".toList, 12, ⟨0, 0, 0⟩, "square", (1, 1), .val 0, 21⟩

/-- C4 counterexample: with a measure reporting width 10000 for every line
at every size, no tried font size fits the 20×20 padded interior of the
40×40 rectangle, yet the wrap result at the smallest tried size is the
non-empty `["hello"]`; the renderer emits no `fillText` call at all
instead of rendering that wrap result. -/
theorem render_noFit_cex :
    (renderTextWithDynamicSizing (fun _ _ => (10000 : ℚ)) ["hello"]
        noFitRes 100 100).texts = [] ∧
      wrapTextCanvas ((fun _ _ => (10000 : ℚ)) 8) ["hello"]
        ((noFitRes.rect.width : ℚ) - 2 * TEXT_PADDING) = ["hello"] := by
  with_unfolding_all decide

/-- C4 amended: in `renderTextWithDynamicSizing`, when no integer step of
the font-size loop (from the clamped starting size down to the minimum
legible size 8) produces a wrap fitting the available width and height —
that is, when `fitResult` is `none`, which also covers a non-positive
padded interior — no text is rendered at all: the output contains no
`fillText` call. -/
theorem render_noFit_amended (measure : ℚ → String → ℚ) (words : List String)
    (res : AnalysisResult) (cw chh : ℚ) (h : fitResult measure words res = none) :
    (renderTextWithDynamicSizing measure words res cw chh).texts = [] := by
  unfold renderTextWithDynamicSizing
  rw [h]

theorem render_noFit_amended_witness :
    (renderTextWithDynamicSizing (fun _ _ => (10000 : ℚ)) ["world"]
      noFitRes 50 50).texts = [] :=
  render_noFit_amended (fun _ _ => (10000 : ℚ)) ["world"] noFitRes 50 50
    (by with_unfolding_all decide)

/-! Error handling of `analyzeImageCore`. -/

/-- Grid dimensions `rows = -1` with a valid 100×100 buffer: the source has
no grid-dimension check, computes (empty) statistics and a hover snapshot,
and only then fails through the empty shape set. -/
def negRowsParams : ImageAnalysisCoreParams :=
  ⟨⟨100, 100, fun _ => 0⟩, ⟨-1, 10⟩, 12, false, 0⟩

/-- C5 counterexample: for non-positive grid dimensions (`rows = -1`) the
analysis does not abort with a null hover snapshot; it returns the
computed hover statistics (`cellHeightPx = 100 / (-1) = -100`, empty cell
list) alongside the null analysis result. -/
theorem analyzeImageCore_null_cex :
    (analyzeImageCore negRowsParams).analysisResultData = none ∧
      (analyzeImageCore negRowsParams).analysisDataForHover =
        some ⟨[], ⟨-1, 10⟩, 10, -100, 100, 100⟩ := by
  with_unfolding_all decide

/-- C5 amended: `analyzeImageCore` never throws for well-typed input and
downgrades failures to null results as follows: for a pixel buffer with
zero width or height it aborts immediately with a null analysis result and
no statistics computed (null hover data); when the shape generator yields
an empty set — which includes non-positive grid dimensions, since they
leave no room for any shape — or when the bounded-grid search over the
generated shapes finds no candidate, it returns a null analysis result but
still returns the already-computed hover statistics. -/
theorem analyzeImageCore_null_amended (p : ImageAnalysisCoreParams) :
    (p.imageData.width = 0 ∨ p.imageData.height = 0 →
      analyzeImageCore p = ⟨none, none⟩) ∧
    (¬(p.imageData.width = 0 ∨ p.imageData.height = 0) →
      (generateShapesToTest p.targetAreaValue
          (p.gridConfig.rows - 2 * p.borderExclusionCells)
          (p.gridConfig.cols - 2 * p.borderExclusionCells) = [] →
        analyzeImageCore p = ⟨none, some (mkHover p.imageData p.gridConfig)⟩) ∧
      (searchBestRect
          (generateShapesToTest p.targetAreaValue
            (p.gridConfig.rows - 2 * p.borderExclusionCells)
            (p.gridConfig.cols - 2 * p.borderExclusionCells))
          (computeCellStats p.imageData p.gridConfig) p.gridConfig
          ((p.imageData.width : ℚ) / (p.gridConfig.cols : ℚ))
          ((p.imageData.height : ℚ) / (p.gridConfig.rows : ℚ))
          p.borderExclusionCells = none →
        analyzeImageCore p = ⟨none, some (mkHover p.imageData p.gridConfig)⟩)) := by
  refine ⟨fun h0 => ?_, fun hdim => ⟨fun hshapes => ?_, fun hsearch => ?_⟩⟩
  · unfold analyzeImageCore
    rw [if_pos h0]
  · unfold analyzeImageCore
    rw [if_neg hdim, hshapes, if_pos rfl]
  · unfold analyzeImageCore
    rw [if_neg hdim]
    by_cases hs : generateShapesToTest p.targetAreaValue
        (p.gridConfig.rows - 2 * p.borderExclusionCells)
        (p.gridConfig.cols - 2 * p.borderExclusionCells) = []
    · rw [hs, if_pos rfl]
    · rw [if_neg hs, hsearch]

/-- A zero-width pixel buffer. -/
def zeroWidthParams : ImageAnalysisCoreParams :=
  ⟨⟨0, 5, fun _ => 0⟩, ⟨10, 10⟩, 12, false, 0⟩

theorem analyzeImageCore_null_witness :
    analyzeImageCore zeroWidthParams = ⟨none, none⟩ :=
  (analyzeImageCore_null_amended zeroWidthParams).1 (Or.inl rfl)

/-! The scrim base color: digit-string machinery. -/

lemma list_isEmpty_false {α : Type} {l : List α} (h : l ≠ []) : l.isEmpty = false := by
  cases l with
  | nil => exact (h rfl).elim
  | cons a t => rfl

lemma digitChar_facts {d : ℕ} (hd : d < 10) :
    (digitChar d).isDigit = true ∧ digitChar d ≠ ' ' ∧ (digitChar d).toNat = 48 + d := by
  interval_cases d <;> exact ⟨by decide, by decide, by decide⟩

lemma natChars_digits {n : ℕ} : ∀ c ∈ natChars n, ∃ d, d < 10 ∧ c = digitChar d := by
  unfold natChars
  split
  · intro c hc
    simp only [List.mem_singleton] at hc
    subst hc
    exact ⟨0, by norm_num, by decide⟩
  · intro c hc
    obtain ⟨d, hd, rfl⟩ := List.mem_map.1 hc
    exact ⟨d, Nat.digits_lt_base (by norm_num) (List.mem_reverse.1 hd), rfl⟩

lemma dropWhile_eq_self_of {α : Type} (p : α → Bool) :
    ∀ {l : List α}, (∀ a ∈ l, p a = false) → l.dropWhile p = l
  | [], _ => rfl
  | a :: l, h => by
    rw [List.dropWhile_cons, h a (List.mem_cons_self a l)]
    simp

lemma takeWhile_eq_self_of {α : Type} (p : α → Bool) :
    ∀ {l : List α}, (∀ a ∈ l, p a = true) → l.takeWhile p = l
  | [], _ => rfl
  | a :: l, h => by
    rw [List.takeWhile_cons, h a (List.mem_cons_self a l)]
    simp only [if_true]
    rw [takeWhile_eq_self_of p fun x hx => h x (List.mem_cons_of_mem a hx)]

lemma natChars_ne_nil (n : ℕ) : natChars n ≠ [] := by
  unfold natChars
  split
  · simp
  · next h =>
    intro hh
    rw [List.map_eq_nil_iff, List.reverse_eq_nil_iff] at hh
    exact Nat.digits_ne_nil_iff_ne_zero.2 h hh

lemma foldl_digitChar_rev :
    ∀ (L : List ℕ), (∀ d ∈ L, d < 10) → ∀ a : ℕ,
      (L.reverse.map digitChar).foldl (fun acc c => 10 * acc + (c.toNat - 48)) a =
        a * 10 ^ L.length + Nat.ofDigits 10 L
  | [], _, a => by simp
  | d :: T, h, a => by
    rw [List.reverse_cons, List.map_append, List.foldl_append,
      foldl_digitChar_rev T (fun x hx => h x (List.mem_cons_of_mem d hx)) a]
    simp only [List.map_cons, List.map_nil, List.foldl_cons, List.foldl_nil]
    rw [(digitChar_facts (h d (List.mem_cons_self d T))).2.2, Nat.add_sub_cancel_left,
      Nat.ofDigits_cons, List.length_cons]
    ring

lemma jsParseInt_natChars (n : ℕ) : jsParseInt (natChars n) = some n := by
  have hnspace : ∀ c ∈ natChars n, decide (c = ' ') = false := by
    intro c hc
    obtain ⟨d, hd, rfl⟩ := natChars_digits c hc
    exact decide_eq_false (digitChar_facts hd).2.1
  have hdig : ∀ c ∈ natChars n, c.isDigit = true := by
    intro c hc
    obtain ⟨d, hd, rfl⟩ := natChars_digits c hc
    exact (digitChar_facts hd).1
  simp only [jsParseInt]
  rw [dropWhile_eq_self_of _ hnspace, takeWhile_eq_self_of _ hdig,
    list_isEmpty_false (natChars_ne_nil n)]
  simp only [Bool.false_eq_true, if_false]
  unfold digitsVal natChars
  split
  · next h => subst h; decide
  · next h =>
    rw [foldl_digitChar_rev (Nat.digits 10 n) (fun d hd =>
      Nat.digits_lt_base (by norm_num) hd) 0, Nat.ofDigits_digits]
    simp

lemma natChars_length_three {n : ℕ} (h1 : 100 ≤ n) (h2 : n ≤ 999) :
    (natChars n).length = 3 := by
  unfold natChars
  rw [if_neg (by omega), List.length_map, List.length_reverse,
    Nat.digits_len 10 n (by norm_num) (by omega)]
  have e2 : (10 : ℕ) ^ 2 = 100 := by norm_num
  have e3 : (10 : ℕ) ^ (2 + 1) = 1000 := by norm_num
  rw [Nat.log_eq_of_pow_le_of_lt_pow (e2 ▸ h1) (e3 ▸ by omega)]

lemma parseChannel_of_take {tc : List Char} {a b n : ℕ}
    (h : (tc.drop a).take (b - a) = natChars n) : parseChannel tc a b = some n := by
  simp only [parseChannel]
  rw [h, list_isEmpty_false (natChars_ne_nil n)]
  simp only [Bool.false_eq_true, if_false]
  exact jsParseInt_natChars n

lemma jsTextIsDark_rgb {r g b : ℕ} (hr1 : 100 ≤ r) (hr2 : r ≤ 999) (hg1 : 100 ≤ g)
    (hg2 : g ≤ 999) (hb1 : 100 ≤ b) (hb2 : b ≤ 999) :
    jsTextIsDark (rgbChars r g b) =
      decide (getLuminance (r : ℚ) (g : ℚ) (b : ℚ) < 128) := by
  obtain ⟨a1, a2, a3, ha⟩ := List.length_eq_three.1 (natChars_length_three hr1 hr2)
  obtain ⟨d1, d2, d3, hd⟩ := List.length_eq_three.1 (natChars_length_three hg1 hg2)
  obtain ⟨e1, e2, e3, he⟩ := List.length_eq_three.1 (natChars_length_three hb1 hb2)
  have hfull : rgbChars r g b =
      'r' :: 'g' :: 'b' :: '(' :: a1 :: a2 :: a3 :: ',' :: ' ' ::
        d1 :: d2 :: d3 :: ',' :: ' ' :: e1 :: e2 :: e3 :: [')'] := by
    unfold rgbChars
    rw [ha, hd, he]
    simp
  have hch1 : parseChannel (rgbChars r g b) 4 7 = some r := by
    apply parseChannel_of_take
    rw [hfull, ha]
    rfl
  have hch2 : parseChannel (rgbChars r g b) 9 12 = some g := by
    apply parseChannel_of_take
    rw [hfull, hd]
    rfl
  have hch3 : parseChannel (rgbChars r g b) 14 17 = some b := by
    apply parseChannel_of_take
    rw [hfull, he]
    rfl
  have hne : decide (rgbChars r g b = "black".toList) = false := by
    apply decide_eq_false
    rw [hfull]
    intro hh
    have := congrArg List.length hh
    simp [String.toList] at this
  unfold jsTextIsDark
  rw [hne, hch1, hch2, hch3]
  simp

/-- The scrim base color inverts the text lightness: white scrim under the
named `black`, black scrim under the named `white`, and for an
`rgb(r, g, b)` text color with three-digit channels, a white scrim exactly
when the channel luminance is below 128. -/
def ScrimColorSpec (res : AnalysisResult) (sc : ScrimCall) : Prop :=
  (res.textColor = "black".toList → sc.color = "255,255,255") ∧
  (res.textColor = "white".toList → sc.color = "0,0,0") ∧
  ∀ r g b : ℕ, 100 ≤ r → r ≤ 255 → 100 ≤ g → g ≤ 255 → 100 ≤ b → b ≤ 255 →
    res.textColor = rgbChars r g b →
    (sc.color = "255,255,255" ↔ getLuminance (r : ℚ) (g : ℚ) (b : ℚ) < 128)

/-- An analysis result whose text color is the rgb string `rgb(9, 250,
250)`: the color itself is light (luminance ≈ 177.9), but the fixed
substring positions parse the channels as `(9, 0, 0)`. -/
def badRgbRes : AnalysisResult :=
  ⟨⟨0, 0, 100, 100⟩, "rgb(9, 250, 250)".toList, 12, ⟨0, 0, 0⟩, "square", (1, 1), .val 0, 1⟩

/-- C9 counterexample: for the light text color `rgb(9, 250, 250)`
(luminance ≥ 128, so the claim demands a black scrim) the renderer draws a
white scrim, because the substring parsing misreads the channels when they
do not all have three digits. -/
theorem render_scrim_color_cex :
    ((renderTextWithDynamicSizing (fun _ _ => 0) ["a"] badRgbRes 100 100).scrim.map
        fun sc => sc.color) = some "255,255,255" ∧
      ¬ getLuminance 9 250 250 < 128 := by
  with_unfolding_all decide

/-- C9 amended: whenever a scrim is drawn, its base color is the inverse
of the lightness of the text color for the names `black` and `white` and
for
`rgb(r, g, b)` text colors whose three channels all have three decimal
digits (channels between 100 and 255): white scrim exactly when the text
luminance of the color is below 128.  (For rgb strings with a channel
below
100 the fixed substring positions misparse the channels and the rule can
fail, as the counterexample shows.) -/
theorem render_scrim_color_amended (measure : ℚ → String → ℚ) (words : List String)
    (res : AnalysisResult) (cw chh : ℚ) (sc : ScrimCall)
    (hsc : (renderTextWithDynamicSizing measure words res cw chh).scrim = some sc) :
    ScrimColorSpec res sc := by
  rw [render_scrim_eq] at hsc
  by_cases h : res.textContrastRatio < CONTRAST_THRESHOLD_FOR_SCRIM ∨
      Busy.lt (.val BUSYNESS_THRESHOLD_FOR_SCRIM) res.rectBusyness
  · rw [if_pos h] at hsc
    have hsc2 : sc = mkScrim res := (Option.some.inj hsc).symm
    subst hsc2
    refine ⟨fun hb => ?_, fun hw => ?_, fun r g b hr1 hr2 hg1 hg2 hb1 hb2 htc => ?_⟩
    · show (if jsTextIsDark res.textColor then "255,255,255" else "0,0,0") = "255,255,255"
      rw [hb]
      have hdark : jsTextIsDark ("black".toList) = true := by decide
      rw [hdark]
      simp
    · show (if jsTextIsDark res.textColor then "255,255,255" else "0,0,0") = "0,0,0"
      rw [hw]
      have hdark : jsTextIsDark ("white".toList) = false := by decide
      rw [hdark]
      simp
    · show (if jsTextIsDark res.textColor then "255,255,255" else "0,0,0") = "255,255,255" ↔
        getLuminance (r : ℚ) (g : ℚ) (b : ℚ) < 128
      rw [htc, jsTextIsDark_rgb hr1 (le_trans hr2 (by norm_num)) hg1
        (le_trans hg2 (by norm_num)) hb1 (le_trans hb2 (by norm_num))]
      by_cases hlum : getLuminance (r : ℚ) (g : ℚ) (b : ℚ) < 128
      · simp [hlum]
      · rw [decide_eq_false hlum]
        simp only [Bool.false_eq_true, if_false]
        constructor
        · intro hh
          exact absurd hh (by decide)
        · intro hh
          exact absurd hh hlum
  · rw [if_neg h] at hsc
    exact absurd hsc (by simp)

/-- An analysis result with text color `black` and low contrast, so the
scrim fires. -/
def blackTextRes : AnalysisResult :=
  ⟨⟨0, 0, 100, 100⟩, "black".toList, 12, ⟨255, 255, 255⟩, "square", (1, 1), .val 0, 1⟩

theorem render_scrim_color_witness :
    ScrimColorSpec blackTextRes ⟨"255,255,255", 0.7, 0, 0, 100, 100⟩ :=
  render_scrim_color_amended (fun _ _ => 0) ["a"] blackTextRes 100 100
    ⟨"255,255,255", 0.7, 0, 0, 100, 100⟩ (by with_unfolding_all decide)

/-! The golden 100×100 uniform-black analysis. -/

lemma floorQ_eq (q : ℚ) : q.floor = ⌊q⌋ := by
  rw [Rat.floor_def', Rat.floor_def]

lemma flatMap_replicate {α β : Type} :
    ∀ (l : List α) (n : ℕ) (v : β),
      l.flatMap (fun _ => List.replicate n v) = List.replicate (l.length * n) v
  | [], _, _ => by simp
  | a :: l, n, v => by
    rw [List.flatMap_cons, flatMap_replicate l n v, List.length_cons, ← List.replicate_add]
    congr 1
    ring

/-- A 100×100 buffer of uniform black RGBA pixels. -/
def black100 : ImageDataM := ⟨100, 100, fun _ => 0⟩

/-- The statistics of a fully-covered cell of a uniform black image. -/
def blackStat : CellStat := ⟨⟨0, 0, 0⟩, .val 0⟩

lemma cellPixels_black (r c : ℕ) :
    cellPixels black100 ⟨10, 10⟩ r c = List.replicate 100 ((0 : ℚ), (0 : ℚ), (0 : ℚ)) := by
  have hten : ∀ k : ℕ, ((k : ℚ) * (((100 : ℕ) : ℚ) / (((10 : ℤ)) : ℚ))).floor = 10 * k := by
    intro k
    rw [floorQ_eq]
    have hx : ((k : ℚ)) * (((100 : ℕ) : ℚ) / (((10 : ℤ)) : ℚ)) = ((10 * k : ℤ) : ℚ) := by
      push_cast
      ring
    rw [hx, Int.floor_intCast]
  have hten1 : ∀ k : ℕ,
      (((k : ℚ) + 1) * (((100 : ℕ) : ℚ) / (((10 : ℤ)) : ℚ))).floor = 10 * (k + 1 : ℕ) := by
    intro k
    rw [floorQ_eq]
    have hx : (((k : ℚ) + 1)) * (((100 : ℕ) : ℚ) / (((10 : ℤ)) : ℚ)) =
        ((10 * (k + 1 : ℕ) : ℤ) : ℚ) := by
      push_cast
      ring
    rw [hx, Int.floor_intCast]
  have hsub : ∀ k : ℕ, ((10 * (k + 1 : ℕ) : ℤ) - 10 * k).toNat = 10 := by
    intro k
    omega
  simp only [cellPixels, black100]
  rw [hten c, hten r, hten1 c, hten1 r, hsub c, hsub r]
  rw [List.map_const', List.length_range, flatMap_replicate, List.length_range]

lemma cellStatFor_black (r c : ℕ) : cellStatFor black100 ⟨10, 10⟩ r c = blackStat := by
  unfold cellStatFor
  rw [cellPixels_black]
  rw [if_neg (by simp)]
  simp only [List.map_replicate, List.sum_replicate, List.length_replicate, smul_zero,
    getLuminance, blackStat]
  norm_num

lemma computeCellStats_black :
    computeCellStats black100 ⟨10, 10⟩ = List.replicate 100 blackStat := by
  unfold computeCellStats
  simp only [cellStatFor_black, List.map_const', List.length_range]
  exact flatMap_replicate (List.range (10 : ℤ).toNat) 10 blackStat

/-- The golden input: 100×100 uniform black, 10×10 grid, target area 12,
no border exclusion, black/white text color mode. -/
def c1Params : ImageAnalysisCoreParams := ⟨black100, ⟨10, 10⟩, 12, false, 0⟩

/-- The analysis result the golden input must produce. -/
def c1Result : AnalysisResult :=
  ⟨⟨0, 0, 40, 30⟩, "white".toList, 12, ⟨0, 0, 0⟩, "square", (3, 4), .val 0, 21⟩

/-- The internal search result for the golden input: the first generated
shape at the first scanned position. -/
def c1Rect : FoundRectInfo := ⟨0, 0, 40, 30, ⟨0, 0, 0⟩, 0, 0, .val 0, ⟨"square", 3, 4⟩⟩

set_option maxRecDepth 100000 in
/-- C1: on a 100×100 uniform black buffer with a 10×10 grid, target area
12, no border exclusion and `preferCellColorForText` off,
`analyzeImageCore` returns a non-null result with `rectBusyness = 0`,
`textColor = "white"`, `avgBackgroundColor = {0,0,0}`,
`textContrastRatio = 21`, and the selected rectangle is the first
generated candidate for area 12 (3×4 cells, aspect name `square`) at the
first scanned position (`rStart = 0`, `cStart = 0`, hence
`rect.x = rect.y = 0`, `rect = 40×30` pixels). -/
theorem analyzeImageCore_black100_spec :
    (analyzeImageCore c1Params).analysisResultData = some c1Result ∧
      (generateShapesToTest 12 10 10).head? = some ⟨"square", 3, 4⟩ ∧
      searchBestRect (generateShapesToTest 12 10 10) (computeCellStats black100 ⟨10, 10⟩)
        ⟨10, 10⟩ ((100 : ℚ) / 10) ((100 : ℚ) / 10) 0 = some c1Rect := by
  have hstats2 : computeCellStats c1Params.imageData c1Params.gridConfig =
      List.replicate 100 blackStat := computeCellStats_black
  refine ⟨?_, by with_unfolding_all decide, ?_⟩
  · unfold analyzeImageCore
    rw [if_neg (by decide), hstats2]
    with_unfolding_all decide
  · rw [computeCellStats_black]
    with_unfolding_all decide
